import Mathlib

/-!
# Verification of the mpw-rs Master Password implementation

A shallow embedding of `src/algorithm.rs` and `src/config.rs`.

Bytes are modelled as `Nat` (values below 256 where they come from real
byte strings); byte strings as `List Nat`.  External cryptographic
primitives (scrypt from the `ring_pwhash` crate, HMAC-SHA-256 and
ChaCha20-Poly1305 from the `ring` crate) are not part of this repository;
they are passed as explicit function parameters, so theorems about the
repository's own code (salt construction, padding, buffer layout, template
application) quantify over them.  Rust `panic!`-style failures (slice index
out of range, explicit panics, `expect`) are modelled as `Option.none` /
`Except.error`.
-/

namespace Mpw

/-- Which variant of password to generate (`SiteVariant` in `algorithm.rs`). -/
inductive SiteVariant
  | Password
  | Login
  | Answer
deriving DecidableEq

/-- Type of the site password (`SiteType` in `algorithm.rs`). -/
inductive SiteType
  | GeneratedMaximum
  | GeneratedLong
  | GeneratedMedium
  | GeneratedBasic
  | GeneratedShort
  | GeneratedPIN
  | GeneratedName
  | GeneratedPhrase
  | Stored
deriving DecidableEq

/-- Error kinds of the algorithm module (`ErrorKind` in `algorithm.rs`). -/
inductive ErrorKind
  | Io
  | FullNameTooLong
  | SiteNameTooLong
  | SiteContextTooLong
deriving DecidableEq

/-- `scope_for_variant` from `algorithm.rs`. -/
def scope_for_variant : SiteVariant → String
  | .Password => "com.lyndir.masterpassword"
  | .Login => "com.lyndir.masterpassword.login"
  | .Answer => "com.lyndir.masterpassword.answer"

/-- The bytes of a scope string (`.as_bytes()`); scope strings are ASCII, so
the UTF-8 bytes are the code points of the characters. -/
def scope_bytes (v : SiteVariant) : List Nat :=
  (scope_for_variant v).data.map Char.toNat

/-- Big-endian 32-bit encoding (`WriteBytesExt::write_u32::<BigEndian>`). -/
def write_u32_be (n : Nat) : List Nat :=
  [n / 2 ^ 24 % 256, n / 2 ^ 16 % 256, n / 2 ^ 8 % 256, n % 256]

/-- Bytes of an ASCII string, used to transcribe the test vectors. -/
def strBytes (s : String) : List Nat :=
  s.data.map Char.toNat

/-- The scrypt parameters `ScryptParams::new(15, 8, 2)`: `log2 N = 15`
(so `N = 2 ^ 15`), `r = 8`, `p = 2`. -/
def SCRYPT_PARAMS : Nat × Nat × Nat :=
  (15, 8, 2)

/-- The master-key salt built by `master_key_for_user_v3`. -/
def master_key_salt (full_name : List Nat) : List Nat :=
  scope_bytes .Password ++ write_u32_be full_name.length ++ full_name

/-- `master_key_for_user_v3` from `algorithm.rs`.  `scryptFn` stands for the
external `scrypt` function of the `ring_pwhash` crate, taking the parameter
triple, the password and the salt.  The `usize → u32` conversion of the
full-name length fails exactly when the length exceeds `2 ^ 32 - 1`. -/
def master_key_for_user_v3 (scryptFn : Nat × Nat × Nat → List Nat → List Nat → List Nat)
    (full_name master_password : List Nat) : Except ErrorKind (List Nat) :=
  if full_name.length < 2 ^ 32 then
    .ok (scryptFn SCRYPT_PARAMS master_password (master_key_salt full_name))
  else
    .error .FullNameTooLong

/-- The 64-byte master key pinned by the `test_key_for_user_v3` test for the
inputs `"John Doe"` / `"password"`. -/
def pinned_master_key : List Nat :=
  [27, 177, 181, 88, 106, 115, 177, 174, 150, 213, 214, 9, 53, 44, 141,
   132, 20, 254, 89, 228, 224, 58, 95, 52, 226, 174, 130, 64, 244, 84, 216,
   6, 136, 210, 95, 208, 201, 115, 81, 48, 112, 177, 183, 129, 50, 44, 115,
   10, 86, 114, 44, 225, 160, 170, 250, 210, 194, 87, 12, 220, 20, 36, 120,
   232]

/-- `characters_in_class` from `algorithm.rs`; `none` models the panic on an
unknown character class. -/
def characters_in_class : Char → Option String
  | 'V' => some "AEIOU"
  | 'C' => some "BCDFGHJKLMNPQRSTVWXYZ"
  | 'v' => some "aeiou"
  | 'c' => some "bcdfghjklmnpqrstvwxyz"
  | 'A' => some "AEIOUBCDFGHJKLMNPQRSTVWXYZ"
  | 'a' => some "AEIOUaeiouBCDFGHJKLMNPQRSTVWXYZbcdfghjklmnpqrstvwxyz"
  | 'n' => some "0123456789"
  | 'o' => some "@&%?,=[]_:-+*$#!'^~;()/."
  | 'x' => some "AEIOUaeiouBCDFGHJKLMNPQRSTVWXYZbcdfghjklmnpqrstvwxyz0123456789!@#$%^&*()"
  | ' ' => some " "
  | _ => none

/-- `character_from_class` from `algorithm.rs`: index the candidate string of
the class by `seed_byte mod length`.  The candidate strings are ASCII, so
their byte length equals their character count. -/
def character_from_class (cls : Char) (seed_byte : Nat) : Option Char :=
  match characters_in_class cls with
  | none => none
  | some class_chars =>
      some (class_chars.data.getD (seed_byte % class_chars.data.length) 'A')

/-- `templates_for_type` from `algorithm.rs`; `none` models the panic for
`Stored`. -/
def templates_for_type : SiteType → Option (List String)
  | .GeneratedMaximum => some [
      "anoxxxxxxxxxxxxxxxxx", "axxxxxxxxxxxxxxxxxno"]
  | .GeneratedLong => some [
      "CvcvnoCvcvCvcv", "CvcvCvcvnoCvcv", "CvcvCvcvCvcvno", "CvccnoCvcvCvcv",
      "CvccCvcvnoCvcv", "CvccCvcvCvcvno", "CvcvnoCvccCvcv", "CvcvCvccnoCvcv",
      "CvcvCvccCvcvno", "CvcvnoCvcvCvcc", "CvcvCvcvnoCvcc", "CvcvCvcvCvccno",
      "CvccnoCvccCvcv", "CvccCvccnoCvcv", "CvccCvccCvcvno", "CvcvnoCvccCvcc",
      "CvcvCvccnoCvcc", "CvcvCvccCvccno", "CvccnoCvcvCvcc", "CvccCvcvnoCvcc",
      "CvccCvcvCvccno"]
  | .GeneratedMedium => some ["CvcnoCvc", "CvcCvcno"]
  | .GeneratedBasic => some ["aaanaaan", "aannaaan", "aaannaaa"]
  | .GeneratedShort => some ["Cvcn"]
  | .GeneratedPIN => some ["nnnn"]
  | .GeneratedName => some ["cvccvcvcv"]
  | .GeneratedPhrase => some [
      "cvcc cvc cvccvcv cvc", "cvc cvccvcvcv cvcv", "cv cvccv cvc cvcvccv"]
  | .Stored => none

/-- `template_for_type` from `algorithm.rs`: select
`templates[seed_byte mod templates.len()]`. -/
def template_for_type (ty : SiteType) (seed_byte : Nat) : Option String :=
  (templates_for_type ty).map fun templates =>
    templates.getD (seed_byte % templates.length) ""

/-- The loop body of `generate_password`: substitute every class character of
the template by the candidate selected by the corresponding seed byte.
`none` models a panic (unknown class, or seed exhausted). -/
def fill_template : List Char → List Nat → Option (List Char)
  | [], _ => some []
  | _ :: _, [] => none
  | c :: cs, b :: bs => do
      let ch ← character_from_class c b
      let rest ← fill_template cs bs
      pure (ch :: rest)

/-- `generate_password` from `algorithm.rs`.  The template is selected by
`seed[0]`; the explicit length check `template.len() >= seed.len()` panics
(modelled as `none`); character `i` of the output consumes `seed[i + 1]`. -/
def generate_password (site_type : SiteType) (seed : List Nat) : Option String :=
  match seed with
  | [] => none
  | s0 :: rest =>
    match template_for_type site_type s0 with
    | none => none
    | some template =>
        if rest.length + 1 ≤ template.data.length then none
        else (fill_template template.data rest).map String.mk

/-- The candidate selected by the specification's encoding rule
`class_candidates[b mod len(class_candidates)]` for class `cls`. -/
def spec_char (cls : Char) (b : Nat) : Char :=
  let cands := ((characters_in_class cls).getD "").data
  cands.getD (b % cands.length) 'A'

/-- The site salt built by `password_for_site_v3`: scope, big-endian name
length, name, big-endian counter, and — only for a non-empty context — the
big-endian context length followed by the context. -/
def site_password_salt (site_name : List Nat) (site_counter : Nat)
    (site_variant : SiteVariant) (site_context : List Nat) : List Nat :=
  scope_bytes site_variant ++ write_u32_be site_name.length ++ site_name ++
    write_u32_be site_counter ++
    (if site_context = [] then []
     else write_u32_be site_context.length ++ site_context)

/-- `password_for_site_v3` from `algorithm.rs`.  `hmacSha256` stands for the
external HMAC-SHA-256 of the `ring` crate (key, then message).  The inner
`Option` models the panics of `generate_password`. -/
def password_for_site_v3 (hmacSha256 : List Nat → List Nat → List Nat)
    (master_key site_name : List Nat) (site_type : SiteType)
    (site_counter : Nat) (site_variant : SiteVariant) (site_context : List Nat) :
    Except ErrorKind (Option String) :=
  if 2 ^ 32 ≤ site_name.length then .error .SiteNameTooLong
  else if site_context ≠ [] ∧ 2 ^ 32 ≤ site_context.length then
    .error .SiteContextTooLong
  else
    let site_password_seed :=
      hmacSha256 master_key
        (site_password_salt site_name site_counter site_variant site_context)
    .ok (generate_password site_type site_password_seed)

/-- The left-arm glyph set of `identicon`. -/
def left_arm : List String :=
  ["╔", "╚", "╰", "═"]

/-- The right-arm glyph set of `identicon`. -/
def right_arm : List String :=
  ["╗", "╝", "╯", "═"]

/-- The body glyph set of `identicon`. -/
def body : List String :=
  ["█", "░", "▒", "▓", "☺", "☻"]

/-- The accessory glyph set of `identicon`, transcribed in source order. -/
def accessory : List String :=
  ["◈", "◎", "◐", "◑", "◒", "◓", "☀", "☁", "☂", "☃", "☄", "★", "☆", "☎",
   "☏", "⎈", "⌂", "☘", "☢", "☣", "☕", "⌚", "⌛", "⏰", "⚡", "⛄", "⛅", "☔",
   "♔", "♕", "♖", "♗", "♘", "♙", "♚", "♛", "♜", "♝", "♞", "♟", "♨", "♩",
   "♪", "♫", "⚐", "⚑", "⚔", "⚖", "⚙", "⚠", "⌘", "⏎", "✄", "✆", "✈", "✉", "✌"]

/-- The `get_part` closure of `identicon`: `set[seed mod set.len()]`. -/
def get_part (set : List String) (seed : Nat) : String :=
  set.getD (seed % set.length) ""

/-- `identicon` from `algorithm.rs`.  `hmacSha256` stands for the external
HMAC-SHA-256 (key, then message); the key is the master password and the
message is the full name.  `none` models the index panic on a seed shorter
than four bytes (HMAC-SHA-256 always returns 32). -/
def identicon (hmacSha256 : List Nat → List Nat → List Nat)
    (full_name master_password : List Nat) : Option String :=
  let identicon_seed := hmacSha256 master_password full_name
  if identicon_seed.length < 4 then none
  else
    some (get_part left_arm (identicon_seed.getD 0 0) ++
          get_part body (identicon_seed.getD 1 0) ++
          get_part right_arm (identicon_seed.getD 2 0) ++
          get_part accessory (identicon_seed.getD 3 0))

/-- `NONCE_LEN` from `algorithm.rs` (chacha20 nonce length). -/
def NONCE_LEN : Nat := 12

/-- `PAD_LEN` from `algorithm.rs`. -/
def PAD_LEN : Nat := 20

/-- `ring::aead::MAX_TAG_LEN`, the Poly1305 tag length. -/
def MAX_TAG_LEN : Nat := 16

/-- `padded_len` from `algorithm.rs`. -/
def padded_len (clear_text_len : Nat) : Nat :=
  max (clear_text_len + 1) PAD_LEN

/-- `min_buffer_len` from `algorithm.rs`. -/
def min_buffer_len (clear_text_len : Nat) : Nat :=
  padded_len clear_text_len + NONCE_LEN + MAX_TAG_LEN

/-- `pad` from `algorithm.rs`.  The first `len` bytes of `buf` are kept and
every byte from position `len` to the end of the buffer is overwritten with
the padding byte (`0` when `len ≥ PAD_LEN`, else `PAD_LEN - len`).  The two
assertions on the buffer length are modelled as `none`. -/
def pad (buf : List Nat) (len : Nat) : Option (List Nat) :=
  if buf.length < PAD_LEN then none
  else if buf.length < len + 1 then none
  else
    let padding_byte := if PAD_LEN ≤ len then 0 else PAD_LEN - len
    some (buf.take len ++ List.replicate (buf.length - len) padding_byte)

/-- `unpad` from `algorithm.rs` (release semantics; the `debug_assert_eq`
checks are compiled out).  Reading the last byte of an empty buffer and the
slice-start underflow for a padding byte larger than the buffer are panics,
modelled as `none`. -/
def unpad (buf : List Nat) : Option (List Nat) :=
  if buf.length = 0 then none
  else
    let padding_byte := buf.getD (buf.length - 1) 0
    if buf.length < padding_byte then none
    else if padding_byte ≠ 0 then some (buf.take (buf.length - padding_byte))
    else some (buf.take (buf.length - 1))

/-- `encrypt` from `algorithm.rs`, written functionally over the in-place
buffer.  `seal` stands for `ring`'s ChaCha20-Poly1305 `seal_in_place` (key,
nonce, message → ciphertext with appended tag); it receives the first 32
bytes of the master key and encrypts everything after the nonce except the
reserved tag suffix.  The random nonce is passed explicitly.  The buffer
length assertion is modelled as `none`. -/
def encrypt (sealFn : List Nat → List Nat → List Nat → List Nat)
    (clear_text master_key nonce buffer : List Nat) : Option (List Nat) :=
  if buffer.length < min_buffer_len clear_text.length then none
  else
    let rest := buffer.drop NONCE_LEN
    let rest1 := clear_text ++ rest.drop clear_text.length
    (pad (rest1.take (padded_len clear_text.length)) clear_text.length).map
      fun padded =>
        let in_out := padded ++ rest1.drop (padded_len clear_text.length)
        nonce ++
          sealFn (master_key.take 32) nonce (in_out.take (in_out.length - MAX_TAG_LEN))

/-- `decrypt` from `algorithm.rs`.  `opn` stands for `ring`'s
`open_in_place` (key, nonce, ciphertext-with-tag → plaintext or failure);
authentication failure is a panic (`expect`), modelled as `none`, as is the
length assertion. -/
def decrypt (opn : List Nat → List Nat → List Nat → Option (List Nat))
    (master_key buffer : List Nat) : Option (List Nat) :=
  if buffer.length ≤ NONCE_LEN then none
  else
    (opn (master_key.take 32) (buffer.take NONCE_LEN) (buffer.drop NONCE_LEN)).bind
      unpad

/-- A concrete stand-in for an AEAD seal: append a recognisable all-zero tag.
It satisfies the seal/open laws assumed of ChaCha20-Poly1305 and is used to
evaluate the buffer-layout code on concrete inputs. -/
def mockSeal (_key _nonce msg : List Nat) : List Nat :=
  msg ++ List.replicate MAX_TAG_LEN 0

/-- The opener matching `mockSeal`. -/
def mockOpen (_key _nonce ct : List Nat) : Option (List Nat) :=
  if MAX_TAG_LEN ≤ ct.length ∧ ct.drop (ct.length - MAX_TAG_LEN) = List.replicate MAX_TAG_LEN 0
  then some (ct.take (ct.length - MAX_TAG_LEN))
  else none

/-- Error kinds of the config module (`ErrorKind` in `config.rs`). -/
inductive ConfigErrorKind
  | ConflictingFullName
  | ConflictingStoredPasswords
  | ConflictingStoredGenerated
deriving DecidableEq

/-- `SiteConfig` from `config.rs` (strings stand for the borrowed
`Cow` fields). -/
structure SiteConfig where
  name : String
  type_ : Option SiteType
  counter : Option Nat
  variant : Option SiteVariant
  context : Option String
  encrypted : Option String
deriving DecidableEq

/-- `Site` from `config.rs`: a site configuration with defaults plugged in. -/
structure Site where
  name : String
  type_ : SiteType
  counter : Nat
  variant : SiteVariant
  context : String
  encrypted : Option String
deriving DecidableEq

/-- `Site::from_config` from `config.rs`. -/
def Site.from_config (config : SiteConfig) : Except ConfigErrorKind Site :=
  let variant := config.variant.getD .Password
  let encrypted := config.encrypted
  let type_ := config.type_.getD
    (if encrypted.isNone then
      match variant with
      | .Password => SiteType.GeneratedLong
      | .Login => SiteType.GeneratedName
      | .Answer => SiteType.GeneratedPhrase
     else .Stored)
  if encrypted.isSome ∧ type_ ≠ .Stored then
    .error .ConflictingStoredGenerated
  else
    .ok { name := config.name, type_ := type_, counter := config.counter.getD 1,
          variant := variant, context := config.context.getD "",
          encrypted := encrypted }

/-- Decidable well-formedness of a template list: every template is at most
20 classes long and uses only known character classes. -/
def templates_ok (ts : List String) : Bool :=
  ts.all fun t =>
    decide (t.data.length ≤ 20) && t.data.all fun c => (characters_in_class c).isSome

/-! ## Helper lemmas -/

theorem templates_for_type_ok (ty : SiteType) (h : ty ≠ SiteType.Stored) :
    ∃ ts, templates_for_type ty = some ts ∧ ts ≠ [] ∧ templates_ok ts = true := by
  cases ty <;> first
    | exact absurd rfl h
    | exact ⟨_, rfl, by decide, by decide⟩

theorem templates_ok_mem {ts : List String} (h : templates_ok ts = true)
    {t : String} (ht : t ∈ ts) :
    t.data.length ≤ 20 ∧ ∀ c ∈ t.data, (characters_in_class c).isSome := by
  rw [templates_ok, List.all_eq_true] at h
  have := h t ht
  rw [Bool.and_eq_true, decide_eq_true_eq, List.all_eq_true] at this
  exact this

theorem getD_mod_mem {α : Type} (ts : List α) (d : α) (x : Nat) (h : ts ≠ []) :
    ts.getD (x % ts.length) d ∈ ts := by
  have hlt : x % ts.length < ts.length :=
    Nat.mod_lt _ (List.length_pos.mpr h)
  rw [List.getD_eq_getElem?_getD, List.getElem?_eq_getElem hlt]
  exact List.getElem_mem hlt

theorem fill_template_spec (cs : List Char) :
    ∀ bs : List Nat, cs.length ≤ bs.length →
      (∀ c ∈ cs, (characters_in_class c).isSome) →
      ∃ out, fill_template cs bs = some out ∧ out.length = cs.length ∧
        ∀ i, i < cs.length →
          out.getD i 'A' = spec_char (cs.getD i ' ') (bs.getD i 0) := by
  induction cs with
  | nil =>
      intro bs _ _
      exact ⟨[], rfl, rfl, fun i hi => absurd hi (by simp)⟩
  | cons c cs ih =>
      intro bs hlen hcls
      cases bs with
      | nil => simp at hlen
      | cons b bs =>
          obtain ⟨out, hout, houtlen, hchar⟩ :=
            ih bs (by simpa using hlen)
              (fun x hx => hcls x (List.mem_cons_of_mem _ hx))
          obtain ⟨s, hs⟩ :=
            Option.isSome_iff_exists.mp (hcls c (List.mem_cons_self c cs))
          refine ⟨spec_char c b :: out, ?_, by simp [houtlen], ?_⟩
          · simp [fill_template, character_from_class, hs, hout, spec_char]
          · intro i hi
            match i with
            | 0 => simp
            | j + 1 => simpa using hchar j (by simpa using hi)

/-! ## Claim C3 -/

/-- C3: for every generated site type and every seed of at least
`1 + 20` bytes, the engine selects `templates[seed[0] mod templates.len()]`
from the type's fixed ordered template list, and the `i`-th character of the
produced string is `candidates[seed[i + 1] mod candidates.len()]` where
`candidates` is the fixed candidate string of the class `template[i]`; the
reductions are plain integer modulo with no rejection sampling. -/
theorem generate_password_spec (ty : SiteType) (hty : ty ≠ SiteType.Stored)
    (s0 : Nat) (rest : List Nat) (hlen : 20 ≤ rest.length) :
    ∃ ts out,
      templates_for_type ty = some ts ∧
      template_for_type ty s0 = some (ts.getD (s0 % ts.length) "") ∧
      generate_password ty (s0 :: rest) = some (String.mk out) ∧
      out.length = (ts.getD (s0 % ts.length) "").data.length ∧
      ∀ i, i < (ts.getD (s0 % ts.length) "").data.length →
        out.getD i 'A' =
          spec_char ((ts.getD (s0 % ts.length) "").data.getD i ' ') (rest.getD i 0) := by
  obtain ⟨ts, hts, hne, hok⟩ := templates_for_type_ok ty hty
  have hmem : ts.getD (s0 % ts.length) "" ∈ ts := getD_mod_mem ts "" s0 hne
  obtain ⟨hl20, hcls⟩ := templates_ok_mem hok hmem
  obtain ⟨out, hout, houtlen, hchar⟩ :=
    fill_template_spec (ts.getD (s0 % ts.length) "").data rest (le_trans hl20 hlen) hcls
  have htf : template_for_type ty s0 = some (ts.getD (s0 % ts.length) "") := by
    simp [template_for_type, hts]
  refine ⟨ts, out, hts, htf, ?_, houtlen, hchar⟩
  simp only [generate_password, htf]
  rw [if_neg (by omega), hout]
  rfl

/-- Witness for C3 at the PIN type with an all-zero seed. -/
theorem generate_password_spec_witness :
    ∃ ts out,
      templates_for_type SiteType.GeneratedPIN = some ts ∧
      template_for_type SiteType.GeneratedPIN 0 = some (ts.getD (0 % ts.length) "") ∧
      generate_password SiteType.GeneratedPIN (0 :: List.replicate 20 0) =
        some (String.mk out) ∧
      out.length = (ts.getD (0 % ts.length) "").data.length ∧
      ∀ i, i < (ts.getD (0 % ts.length) "").data.length →
        out.getD i 'A' =
          spec_char ((ts.getD (0 % ts.length) "").data.getD i ' ')
            ((List.replicate 20 0).getD i 0) :=
  generate_password_spec SiteType.GeneratedPIN (by decide) 0
    (List.replicate 20 0) (by decide)

/-! ## Claim C8 -/

/-- C8: every template of every generated site type has length at most 20,
so for a 32-byte seed the length check of `generate_password` (requiring the
seed strictly longer than the template) passes and the function reaches no
panic branch (its result is `some`). -/
theorem generate_password_succeeds (ty : SiteType) (hty : ty ≠ SiteType.Stored)
    (seed : List Nat) (hlen : seed.length = 32) :
    (∀ ts, templates_for_type ty = some ts → ∀ t ∈ ts, t.data.length ≤ 20) ∧
    (generate_password ty seed).isSome := by
  obtain ⟨ts, hts, hne, hok⟩ := templates_for_type_ok ty hty
  constructor
  · intro ts2 hts2 t ht
    rw [hts] at hts2
    injection hts2 with h
    subst h
    exact (templates_ok_mem hok ht).1
  · cases seed with
    | nil => simp at hlen
    | cons s0 rest =>
        have hrest : rest.length = 31 := by simpa using hlen
        have hmem : ts.getD (s0 % ts.length) "" ∈ ts := getD_mod_mem ts "" s0 hne
        obtain ⟨hl20, hcls⟩ := templates_ok_mem hok hmem
        obtain ⟨out, hout, _, _⟩ :=
          fill_template_spec (ts.getD (s0 % ts.length) "").data rest
            (by omega) hcls
        have htf : template_for_type ty s0 = some (ts.getD (s0 % ts.length) "") := by
          simp [template_for_type, hts]
        simp only [generate_password, htf]
        rw [if_neg (by omega), hout]
        rfl

/-- Witness for C8 at the Maximum type with a constant 32-byte seed. -/
theorem generate_password_succeeds_witness :
    (∀ ts, templates_for_type SiteType.GeneratedMaximum = some ts →
      ∀ t ∈ ts, t.data.length ≤ 20) ∧
    (generate_password SiteType.GeneratedMaximum (List.replicate 32 7)).isSome :=
  generate_password_succeeds SiteType.GeneratedMaximum (by decide)
    (List.replicate 32 7) (by decide)

/-! ## Claim C1 -/

/-- C1: for every master key, site name, type, counter, variant and context,
`password_for_site_v3` builds the site salt as scope string ++ big-endian
32-bit name length ++ name ++ big-endian 32-bit counter, appending the
big-endian 32-bit context length followed by the context iff the context is
non-empty, and feeds `hmacSha256 master_key salt` as the seed into the
template engine. -/
theorem password_for_site_v3_spec
    (hmacSha256 : List Nat → List Nat → List Nat)
    (master_key site_name site_context : List Nat)
    (site_type : SiteType) (site_counter : Nat) (site_variant : SiteVariant)
    (_hmk : master_key.length = 64)
    (hn : site_name.length < 2 ^ 32) (hc : site_context.length < 2 ^ 32) :
    password_for_site_v3 hmacSha256 master_key site_name site_type site_counter
        site_variant site_context =
      .ok (generate_password site_type
        (hmacSha256 master_key
          (scope_bytes site_variant ++ write_u32_be site_name.length ++ site_name ++
           write_u32_be site_counter ++
           (if site_context = [] then []
            else write_u32_be site_context.length ++ site_context)))) := by
  rw [password_for_site_v3, if_neg (by omega),
    if_neg (fun hctx => absurd hctx.2 (by omega))]
  rfl

/-- Witness for C1 at concrete inputs with a constant stand-in HMAC. -/
theorem password_for_site_v3_spec_witness :
    password_for_site_v3 (fun _ _ => List.replicate 32 0) (List.replicate 64 0)
        [1, 2, 3] SiteType.GeneratedShort 1 SiteVariant.Login [] =
      .ok (generate_password SiteType.GeneratedShort
        ((fun _ _ => List.replicate 32 0) (List.replicate 64 0)
          (scope_bytes SiteVariant.Login ++ write_u32_be ([1, 2, 3] : List Nat).length ++
           [1, 2, 3] ++ write_u32_be 1 ++
           (if ([] : List Nat) = [] then []
            else write_u32_be ([] : List Nat).length ++ [])))) :=
  password_for_site_v3_spec (fun _ _ => List.replicate 32 0) (List.replicate 64 0)
    [1, 2, 3] [] SiteType.GeneratedShort 1 SiteVariant.Login (by decide)
    (by decide) (by decide)

/-! ## Claim C2 -/

/-- C2: for every full name of byte length at most `2 ^ 32 - 1`,
`master_key_for_user_v3` returns the output of scrypt with parameters
`log2 N = 15` (`N = 2 ^ 15`), `r = 8`, `p = 2` applied to the master password
and the salt built from the `Password` scope string, the big-endian 32-bit
full-name length and the full name; on `"John Doe"` / `"password"` the result
is the pinned 64-byte vector whenever scrypt maps that input to it. -/
theorem master_key_for_user_v3_spec
    (scryptFn : Nat × Nat × Nat → List Nat → List Nat → List Nat)
    (full_name master_password : List Nat)
    (h : full_name.length ≤ 2 ^ 32 - 1) :
    (master_key_for_user_v3 scryptFn full_name master_password =
      .ok (scryptFn (15, 8, 2) master_password
        (scope_bytes .Password ++ write_u32_be full_name.length ++ full_name))) ∧
    pinned_master_key.length = 64 ∧
    pinned_master_key.take 4 = [27, 177, 181, 88] ∧
    (scryptFn (15, 8, 2) (strBytes "password") (master_key_salt (strBytes "John Doe")) =
        pinned_master_key →
      master_key_for_user_v3 scryptFn (strBytes "John Doe") (strBytes "password") =
        .ok pinned_master_key) := by
  refine ⟨?_, by decide, by decide, ?_⟩
  · rw [master_key_for_user_v3, if_pos (by omega)]
    rfl
  · intro hpin
    rw [master_key_for_user_v3, if_pos (by decide)]
    simp only [SCRYPT_PARAMS] at hpin ⊢
    rw [hpin]

/-- Witness for C2 with a stand-in scrypt that returns the pinned vector. -/
theorem master_key_for_user_v3_spec_witness :
    (master_key_for_user_v3 (fun _ _ _ => pinned_master_key) (strBytes "John Doe")
        (strBytes "password") =
      .ok ((fun _ _ _ => pinned_master_key) ((15 : Nat), (8 : Nat), (2 : Nat))
        (strBytes "password")
        (scope_bytes .Password ++ write_u32_be (strBytes "John Doe").length ++
          strBytes "John Doe"))) ∧
    pinned_master_key.length = 64 ∧
    pinned_master_key.take 4 = [27, 177, 181, 88] ∧
    ((fun _ _ _ => pinned_master_key) ((15 : Nat), (8 : Nat), (2 : Nat))
        (strBytes "password") (master_key_salt (strBytes "John Doe")) =
        pinned_master_key →
      master_key_for_user_v3 (fun _ _ _ => pinned_master_key) (strBytes "John Doe")
        (strBytes "password") = .ok pinned_master_key) :=
  master_key_for_user_v3_spec (fun _ _ _ => pinned_master_key)
    (strBytes "John Doe") (strBytes "password") (by decide)

/-! ## Claim C6 -/

/-- C6 counterexample: the accessory set has 57 glyphs, not 55.  For a seed
with `seed[3] = 55` the code emits `accessory[55 mod 57] = accessory[55]`
(`"✉"`), while the claim's rule `set[seed[3] mod 55]` would select index 0
(`"◈"`). -/
theorem identicon_accessory_cex :
    accessory.length = 57 ∧ accessory.length ≠ 55 ∧
    identicon (fun _ _ => [0, 0, 0, 55]) [] [] =
      some ("╔" ++ "█" ++ "╗" ++ accessory.getD 55 "") ∧
    accessory.getD 55 "" = "✉" ∧ accessory.getD (55 % 55) "" = "◈" ∧
    ("✉" : String) ≠ "◈" := by
  refine ⟨rfl, by decide, rfl, rfl, rfl, by decide⟩

/-- C6 amended: `identicon` computes the seed as HMAC-SHA-256 keyed with the
master password over the full name, and concatenates four glyphs
`set[seed[k] mod set.len()]` for `k = 0, 1, 2, 3`, drawn from the 4-element
left-arm set, the 6-element body set, the 4-element right-arm set and the
57-element (not 55-element) accessory set. -/
theorem identicon_spec (hmacSha256 : List Nat → List Nat → List Nat)
    (full_name master_password : List Nat)
    (h4 : 4 ≤ (hmacSha256 master_password full_name).length) :
    left_arm.length = 4 ∧ body.length = 6 ∧ right_arm.length = 4 ∧
    accessory.length = 57 ∧
    identicon hmacSha256 full_name master_password =
      some (left_arm.getD
              ((hmacSha256 master_password full_name).getD 0 0 % left_arm.length) "" ++
            body.getD
              ((hmacSha256 master_password full_name).getD 1 0 % body.length) "" ++
            right_arm.getD
              ((hmacSha256 master_password full_name).getD 2 0 % right_arm.length) "" ++
            accessory.getD
              ((hmacSha256 master_password full_name).getD 3 0 % accessory.length) "") := by
  refine ⟨rfl, rfl, rfl, rfl, ?_⟩
  simp only [identicon, get_part]
  rw [if_neg (by omega)]

/-- Witness for the amended C6 with a constant stand-in HMAC. -/
theorem identicon_spec_witness :
    left_arm.length = 4 ∧ body.length = 6 ∧ right_arm.length = 4 ∧
    accessory.length = 57 ∧
    identicon (fun _ _ => List.replicate 32 0) [] [] =
      some (left_arm.getD
              (((fun _ _ => List.replicate 32 0) ([] : List Nat) ([] : List Nat)).getD 0 0 %
                left_arm.length) "" ++
            body.getD
              (((fun _ _ => List.replicate 32 0) ([] : List Nat) ([] : List Nat)).getD 1 0 %
                body.length) "" ++
            right_arm.getD
              (((fun _ _ => List.replicate 32 0) ([] : List Nat) ([] : List Nat)).getD 2 0 %
                right_arm.length) "" ++
            accessory.getD
              (((fun _ _ => List.replicate 32 0) ([] : List Nat) ([] : List Nat)).getD 3 0 %
                accessory.length) "") :=
  identicon_spec (fun _ _ => List.replicate 32 0) [] [] (by decide)

/-! ## Claim C7 -/

/-- C7 counterexample: `Site::from_config` accepts a config with an explicit
`Stored` type and no `encrypted` field, producing a site whose type is
`Stored` while `encrypted` is absent — the direction "type = Stored implies
encrypted present" of the claimed invariant fails (`main.rs` guards this
case only at use, exiting with "found stored password without 'encrypted'
field"). -/
theorem from_config_stored_cex :
    Site.from_config
        (SiteConfig.mk "example.com" (some SiteType.Stored) none none none none) =
      Except.ok (Site.mk "example.com" SiteType.Stored 1 SiteVariant.Password "" none) ∧
    (Site.mk "example.com" SiteType.Stored 1 SiteVariant.Password "" none).type_ =
      SiteType.Stored ∧
    (Site.mk "example.com" SiteType.Stored 1 SiteVariant.Password "" none).encrypted.isSome =
      false := by
  exact ⟨rfl, rfl, rfl⟩

/-- C7 amended: every site produced by `Site::from_config` satisfies the
direction "if `encrypted` is present then the type is `Stored`" (a present
`encrypted` together with an explicit generated type is rejected with an
error); the converse direction does not hold, since an explicit `Stored`
type without `encrypted` is accepted. -/
theorem from_config_spec (c : SiteConfig) (s : Site)
    (h : Site.from_config c = Except.ok s) (he : s.encrypted.isSome) :
    s.type_ = SiteType.Stored ∧
    (c.type_ = none ∨ c.type_ = some SiteType.Stored) := by
  obtain ⟨nm, ty?, ctr, var, ctx, enc⟩ := c
  cases enc with
  | none =>
      simp only [Site.from_config, Option.isSome_none, Bool.false_eq_true,
        false_and, if_false] at h
      injection h with h2
      rw [← h2] at he
      simp at he
  | some e =>
      cases ty? with
      | none =>
            simp only [Site.from_config, Option.getD_none, Option.isNone_some,
              Bool.false_eq_true, if_false, ne_eq, not_true_eq_false, and_false,
              if_false] at h
            injection h with h2
            rw [← h2]
            exact ⟨rfl, Or.inl rfl⟩
      | some t =>
            by_cases ht : t = SiteType.Stored
            · subst ht
              simp only [Site.from_config, Option.getD_some, ne_eq,
                not_true_eq_false, and_false, if_false] at h
              injection h with h2
              rw [← h2]
              exact ⟨rfl, Or.inr rfl⟩
            · simp only [Site.from_config, Option.getD_some, ne_eq,
                Option.isSome_some, true_and, if_pos ht] at h
              exact Except.noConfusion h

/-- Witness for the amended C7: a config with a present `encrypted` field and
no explicit type resolves to a `Stored` site. -/
theorem from_config_spec_witness :
    (Site.mk "example.com" SiteType.Stored 1 SiteVariant.Password ""
        (some "c2VjcmV0")).type_ = SiteType.Stored ∧
    ((SiteConfig.mk "example.com" none none none none (some "c2VjcmV0")).type_ = none ∨
     (SiteConfig.mk "example.com" none none none none (some "c2VjcmV0")).type_ =
       some SiteType.Stored) :=
  from_config_spec (SiteConfig.mk "example.com" none none none none (some "c2VjcmV0"))
    (Site.mk "example.com" SiteType.Stored 1 SiteVariant.Password "" (some "c2VjcmV0"))
    rfl rfl

/-! ## Claim C5 -/

/-- C5 counterexample: on a 25-byte buffer with plaintext length 5 (allowed
by the claim's premise, since 25 ≥ max(PAD_LEN, 5 + 1)), `pad` overwrites
every position from 5 to the end of the buffer with the padding byte 15 —
including positions 20..24, which the claim says are left unchanged (they
held 1). -/
theorem pad_positions_cex :
    PAD_LEN ≤ 25 ∧ 5 + 1 ≤ 25 ∧
    pad (List.replicate 25 1) 5 = some (List.replicate 5 1 ++ List.replicate 20 15) ∧
    (List.replicate 5 1 ++ List.replicate 20 15 : List Nat).getD 20 0 = 15 ∧
    (List.replicate 25 1 : List Nat).getD 20 0 = 1 ∧ (15 : Nat) ≠ 1 := by
  refine ⟨by decide, by decide, by decide, by decide, by decide, by decide⟩

/-- C5 amended: for a buffer of length at least `max(PAD_LEN, n + 1)` whose
first `n` bytes hold the plaintext, `pad` leaves the first `n` bytes
unchanged and writes the padding byte (`PAD_LEN - n` when `n < PAD_LEN`,
else `0`) into every position from `n` to the end of the buffer (on the
exact-size buffer of length `padded_len n` used by `encrypt` these are
precisely the positions `[n, PAD_LEN)` resp. the single position `n`);
`padded_len n = max (n + 1) PAD_LEN` with `PAD_LEN = 20`. -/
theorem pad_spec (buf : List Nat) (len : Nat)
    (h1 : PAD_LEN ≤ buf.length) (h2 : len + 1 ≤ buf.length) :
    ∃ out, pad buf len = some out ∧
      out.length = buf.length ∧
      (∀ i, i < len → out.getD i 0 = buf.getD i 0) ∧
      (∀ i, len ≤ i → i < buf.length →
        out.getD i 0 = if len < PAD_LEN then PAD_LEN - len else 0) ∧
      padded_len len = max (len + 1) PAD_LEN ∧ PAD_LEN = 20 := by
  have hlen : len ≤ buf.length := by omega
  have htl : (buf.take len).length = len := by
    rw [List.length_take]
    omega
  refine ⟨buf.take len ++ List.replicate (buf.length - len)
      (if PAD_LEN ≤ len then 0 else PAD_LEN - len), ?_, ?_, ?_, ?_, rfl, rfl⟩
  · rw [pad, if_neg (by omega), if_neg (by omega)]
  · rw [List.length_append, htl, List.length_replicate]
    omega
  · intro i hi
    rw [List.getD_append _ _ _ _ (by omega), List.getD_eq_getElem?_getD,
      List.getElem?_take_of_lt hi, List.getD_eq_getElem?_getD]
  · intro i hi1 hi2
    rw [List.getD_append_right _ _ _ _ (by omega), htl,
      List.getD_eq_getElem?_getD, List.getElem?_replicate, if_pos (by omega)]
    rw [Option.getD_some]
    split
    · next h => rw [if_neg (by omega)]
    · next h => rw [if_pos (by omega)]

/-- Witness for the amended C5 on the counterexample's input. -/
theorem pad_spec_witness :
    ∃ out, pad (List.replicate 25 1) 5 = some out ∧
      out.length = (List.replicate 25 1 : List Nat).length ∧
      (∀ i, i < 5 → out.getD i 0 = (List.replicate 25 1 : List Nat).getD i 0) ∧
      (∀ i, 5 ≤ i → i < (List.replicate 25 1 : List Nat).length →
        out.getD i 0 = if 5 < PAD_LEN then PAD_LEN - 5 else 0) ∧
      padded_len 5 = max (5 + 1) PAD_LEN ∧ PAD_LEN = 20 :=
  pad_spec (List.replicate 25 1) 5 (by decide) (by decide)

/-! ## AEAD helper lemmas -/

theorem mockSeal_length (k nn m : List Nat) :
    (mockSeal k nn m).length = m.length + MAX_TAG_LEN := by
  simp [mockSeal]

theorem mockOpen_mockSeal (k nn m : List Nat) :
    mockOpen k nn (mockSeal k nn m) = some m := by
  have h1 : (m ++ List.replicate MAX_TAG_LEN 0).length - MAX_TAG_LEN = m.length := by
    simp
  rw [mockSeal, mockOpen,
    if_pos ⟨by simp, by rw [h1, List.drop_left]⟩, h1, List.take_left]

theorem getD_concat (l : List Nat) (b : Nat) :
    (l ++ [b]).getD ((l ++ [b]).length - 1) 0 = b := by
  have h : (l ++ [b]).length - 1 = l.length := by simp
  rw [h, List.getD_eq_getElem?_getD, List.getElem?_append_right (Nat.le_refl _)]
  simp

theorem unpad_padded (ct : List Nat) :
    unpad (ct ++ List.replicate (padded_len ct.length - ct.length)
      (if PAD_LEN ≤ ct.length then 0 else PAD_LEN - ct.length)) = some ct := by
  have hPL : PAD_LEN = 20 := rfl
  have hpl : padded_len ct.length = max (ct.length + 1) PAD_LEN := rfl
  by_cases h : PAD_LEN ≤ ct.length
  · rw [if_pos h]
    have hp : padded_len ct.length - ct.length = 1 := by omega
    rw [hp, List.replicate_one, unpad, if_neg (by simp)]
    rw [getD_concat]
    rw [if_neg (by omega), if_neg (by simp)]
    have hl : (ct ++ [0]).length - 1 = ct.length := by simp
    rw [hl, List.take_left]
  · rw [if_neg h]
    have hp : padded_len ct.length - ct.length = PAD_LEN - ct.length := by omega
    rw [hp]
    obtain ⟨j, hj⟩ : ∃ j, PAD_LEN - ct.length = j + 1 := ⟨PAD_LEN - ct.length - 1, by omega⟩
    rw [hj, List.replicate_succ', ← List.append_assoc]
    rw [unpad, if_neg (by simp)]
    rw [getD_concat]
    have hlen : (ct ++ List.replicate j (j + 1) ++ [j + 1]).length = ct.length + j + 1 := by
      simp
      omega
    rw [if_neg (by omega), if_pos (by omega), hlen]
    have hct : ct.length + j + 1 - (j + 1) = ct.length := by omega
    rw [hct, List.append_assoc, List.take_left]

theorem encrypt_exact (sealFn : List Nat → List Nat → List Nat → List Nat)
    (clear_text master_key nonce buffer : List Nat)
    (hbuf : buffer.length = min_buffer_len clear_text.length) :
    encrypt sealFn clear_text master_key nonce buffer =
      some (nonce ++ sealFn (master_key.take 32) nonce
        (clear_text ++ List.replicate (padded_len clear_text.length - clear_text.length)
          (if PAD_LEN ≤ clear_text.length then 0 else PAD_LEN - clear_text.length))) := by
  have hm : min_buffer_len clear_text.length =
      padded_len clear_text.length + NONCE_LEN + MAX_TAG_LEN := rfl
  have hpl : padded_len clear_text.length = max (clear_text.length + 1) PAD_LEN := rfl
  have hPL : PAD_LEN = 20 := rfl
  have hrest : (buffer.drop NONCE_LEN).length =
      padded_len clear_text.length + MAX_TAG_LEN := by
    rw [List.length_drop]
    omega
  have hdrop : ((buffer.drop NONCE_LEN).drop clear_text.length).length =
      padded_len clear_text.length + MAX_TAG_LEN - clear_text.length := by
    rw [List.length_drop, hrest]
  have htake : (clear_text ++ (buffer.drop NONCE_LEN).drop clear_text.length).take
        (padded_len clear_text.length) =
      clear_text ++ ((buffer.drop NONCE_LEN).drop clear_text.length).take
        (padded_len clear_text.length - clear_text.length) := by
    rw [List.take_append_eq_append_take, List.take_of_length_le (by omega)]
  have hjunk : (((buffer.drop NONCE_LEN).drop clear_text.length).take
        (padded_len clear_text.length - clear_text.length)).length =
      padded_len clear_text.length - clear_text.length := by
    rw [List.length_take]
    omega
  have hargl : (clear_text ++ ((buffer.drop NONCE_LEN).drop clear_text.length).take
        (padded_len clear_text.length - clear_text.length)).length =
      padded_len clear_text.length := by
    rw [List.length_append, hjunk]
    omega
  have hpad : pad ((clear_text ++ (buffer.drop NONCE_LEN).drop clear_text.length).take
        (padded_len clear_text.length)) clear_text.length =
      some (clear_text ++
        List.replicate (padded_len clear_text.length - clear_text.length)
          (if PAD_LEN ≤ clear_text.length then 0 else PAD_LEN - clear_text.length)) := by
    rw [htake, pad, if_neg (by omega), if_neg (by omega), List.take_left' rfl, hargl]
  have hpadded : (clear_text ++
        List.replicate (padded_len clear_text.length - clear_text.length)
          (if PAD_LEN ≤ clear_text.length then 0 else PAD_LEN - clear_text.length)).length =
      padded_len clear_text.length := by
    rw [List.length_append, List.length_replicate]
    omega
  have hdrop2 : ((clear_text ++ (buffer.drop NONCE_LEN).drop clear_text.length).drop
        (padded_len clear_text.length)).length = MAX_TAG_LEN := by
    rw [List.length_drop, List.length_append, hdrop]
    omega
  simp only [encrypt]
  rw [if_neg (by omega)]
  simp only [hpad, Option.map_some']
  have hio : ((clear_text ++
        List.replicate (padded_len clear_text.length - clear_text.length)
          (if PAD_LEN ≤ clear_text.length then 0 else PAD_LEN - clear_text.length)) ++
        (clear_text ++ (buffer.drop NONCE_LEN).drop clear_text.length).drop
          (padded_len clear_text.length)).length - MAX_TAG_LEN =
      padded_len clear_text.length := by
    rw [List.length_append, hpadded, hdrop2]
    omega
  rw [hio, List.take_left' hpadded]

/-! ## Claim C4 -/

/-- C4 counterexample: with a buffer of 49 bytes — one more than
`min_buffer_len 1 = 48`, still allowed by the claim's "at least" premise —
encrypting the 1-byte plaintext `[7]` and decrypting the result (with an
AEAD stand-in satisfying the seal/open inverse laws, cf.
`mockOpen_mockSeal`) yields `[7] ++ 19 padding bytes`, not `[7]`: the extra
buffer byte is sealed after the padding, so `unpad` inspects a stale byte
instead of the padding byte. -/
theorem encrypt_decrypt_oversized_cex :
    min_buffer_len 1 ≤ 49 ∧
    ((encrypt mockSeal [7] (List.replicate 64 1) (List.replicate 12 0)
        (List.replicate 49 0)).bind
      (decrypt mockOpen (List.replicate 64 1)) =
      some ([7] ++ List.replicate 19 19)) ∧
    some ([7] ++ List.replicate 19 19) ≠ some ([7] : List Nat) := by
  refine ⟨by decide, by decide, by decide⟩

/-- C4 amended: for every plaintext of length `0..=4096`, every 64-byte
master key and a buffer of exactly `min_buffer_len n` bytes (as allocated by
every caller in the repository), decrypting the encryption of the plaintext
under the same key returns exactly the original plaintext, for any AEAD
satisfying the seal/open inverse and length laws; in particular `unpad` is a
left inverse of `pad` on the exact-size padding buffer for every plaintext
length. -/
theorem encrypt_decrypt_roundtrip
    (sealFn : List Nat → List Nat → List Nat → List Nat)
    (opn : List Nat → List Nat → List Nat → Option (List Nat))
    (hinv : ∀ k nn m, opn k nn (sealFn k nn m) = some m)
    (hsl : ∀ k nn m, (sealFn k nn m).length = m.length + MAX_TAG_LEN)
    (clear_text master_key nonce buffer : List Nat)
    (_hct : clear_text.length ≤ 4096)
    (_hmk : master_key.length = 64)
    (hnonce : nonce.length = NONCE_LEN)
    (hbuf : buffer.length = min_buffer_len clear_text.length) :
    ∃ ct, encrypt sealFn clear_text master_key nonce buffer = some ct ∧
      decrypt opn master_key ct = some clear_text := by
  refine ⟨_, encrypt_exact sealFn clear_text master_key nonce buffer hbuf, ?_⟩
  have hlen : (nonce ++ sealFn (master_key.take 32) nonce
      (clear_text ++ List.replicate (padded_len clear_text.length - clear_text.length)
        (if PAD_LEN ≤ clear_text.length then 0 else PAD_LEN - clear_text.length))).length =
      NONCE_LEN + ((clear_text ++
        List.replicate (padded_len clear_text.length - clear_text.length)
          (if PAD_LEN ≤ clear_text.length then 0
           else PAD_LEN - clear_text.length)).length + MAX_TAG_LEN) := by
    rw [List.length_append, hnonce, hsl]
  have hMT : MAX_TAG_LEN = 16 := rfl
  rw [decrypt, if_neg (by omega), List.take_left' hnonce, List.drop_left' hnonce,
    hinv, Option.some_bind]
  exact unpad_padded clear_text

/-- Witness for the amended C4: round trip of the plaintext `[7]` on the
exact-size 48-byte buffer with the stand-in AEAD. -/
theorem encrypt_decrypt_roundtrip_witness :
    ∃ ct, encrypt mockSeal [7] (List.replicate 64 1) (List.replicate 12 0)
        (List.replicate 48 0) = some ct ∧
      decrypt mockOpen (List.replicate 64 1) ct = some [7] :=
  encrypt_decrypt_roundtrip mockSeal mockOpen mockOpen_mockSeal mockSeal_length
    [7] (List.replicate 64 1) (List.replicate 12 0) (List.replicate 48 0)
    (by decide) (by decide) (by decide) (by decide)

/-! ## Claim C9 -/

/-- C9: any two plaintext lengths strictly below `PAD_LEN` have the same
padded length (`PAD_LEN`) and the same minimal buffer length, and `encrypt`
on the minimal buffer produces a ciphertext buffer of exactly that common
length, so ciphertext length reveals nothing about the length of short
plaintexts. -/
theorem length_hiding (n1 n2 : Nat) (h1 : n1 < PAD_LEN) (h2 : n2 < PAD_LEN)
    (sealFn : List Nat → List Nat → List Nat → List Nat)
    (hsl : ∀ k nn m, (sealFn k nn m).length = m.length + MAX_TAG_LEN)
    (clear_text master_key nonce buffer : List Nat)
    (hct : clear_text.length = n1) (hnonce : nonce.length = NONCE_LEN)
    (hbuf : buffer.length = min_buffer_len n1) :
    padded_len n1 = PAD_LEN ∧ padded_len n2 = PAD_LEN ∧
    min_buffer_len n1 = min_buffer_len n2 ∧
    ∃ ct, encrypt sealFn clear_text master_key nonce buffer = some ct ∧
      ct.length = min_buffer_len n2 := by
  have e1 : padded_len n1 = PAD_LEN := by
    rw [padded_len]
    omega
  have e2 : padded_len n2 = PAD_LEN := by
    rw [padded_len]
    omega
  have e3 : min_buffer_len n1 = min_buffer_len n2 := by
    rw [min_buffer_len, min_buffer_len, e1, e2]
  refine ⟨e1, e2, e3, _,
    encrypt_exact sealFn clear_text master_key nonce buffer (by rw [hct, hbuf]), ?_⟩
  have hpadded : (clear_text ++
      List.replicate (padded_len clear_text.length - clear_text.length)
        (if PAD_LEN ≤ clear_text.length then 0
         else PAD_LEN - clear_text.length)).length = padded_len clear_text.length := by
    rw [List.length_append, List.length_replicate, padded_len]
    omega
  rw [List.length_append, hnonce, hsl, hpadded, hct, e1, min_buffer_len, e2]
  omega

/-- Witness for C9 at lengths 3 and 5 with the stand-in AEAD. -/
theorem length_hiding_witness :
    padded_len 3 = PAD_LEN ∧ padded_len 5 = PAD_LEN ∧
    min_buffer_len 3 = min_buffer_len 5 ∧
    ∃ ct, encrypt mockSeal [1, 2, 3] (List.replicate 64 0) (List.replicate 12 0)
        (List.replicate 48 0) = some ct ∧
      ct.length = min_buffer_len 5 :=
  length_hiding 3 5 (by decide) (by decide) mockSeal mockSeal_length
    [1, 2, 3] (List.replicate 64 0) (List.replicate 12 0) (List.replicate 48 0)
    (by decide) (by decide) (by decide)

end Mpw
